import Mathlib

/-!
Verification of the chunked maze-generation subsystem of `src/game.py`.

We shallowly embed the module-level mutable state of `game.py`
(`maze_cache`, `chunk_generation_queue`, `generation_queue`, the worker's
in-flight key) as a state record `SysState`, and the functions
`get_maze_chunk`, `get_maze_cell`, `generate_chunk`, `Player.move`,
`process_chunk_generation` and the worker loop as state-passing functions
plus a small-step transition relation `Step` capturing the interleaving of
the foreground (game loop) actor and the background worker thread.

Modelling decisions:
* Python machine floats (noise samples, the constants `0.05` and `0.2`)
  are modelled as rationals; the decimal literals are exact in `ℚ`.
* The OpenSimplex generator `noise_gen.noise2` (seeded once with 42 at
  module load, line 35) is a pure deterministic function of its arguments;
  it is modelled as a parameter `noise2 : ℚ → ℚ → ℚ` fixed for a whole run.
* `scipy.ndimage.median_filter(input, size=4)` is embedded with scipy's
  documented conventions: a `4 × 4` window whose even-size origin spans
  offsets `-2 .. 1` on each axis, boundary mode `reflect`, and the median
  of the `16` window values taken as the element of rank `16 / 2 = 8`
  (0-indexed) of the sorted window, which is scipy's choice for an
  even-sized footprint.
* pygame rendering, event handling, the win-condition banner and the
  module global `loading_chunks` (declared on line 36 and never used) have
  no effect on the verified state and are omitted.
-/

namespace Maze

/-- Chunk edge length, `CHUNK_SIZE = 4` (game.py line 29). -/
def CHUNK_SIZE : ℤ := 4

/-- Pixel size of one world cell, `CELL_SIZE = 20` (game.py line 13). -/
def CELL_SIZE : ℤ := 20

/-- Coordinate pair: either a world-cell coordinate or a chunk coordinate. -/
abbrev Coord := ℤ × ℤ

/-- Maze chunk: a `CHUNK_SIZE × CHUNK_SIZE` grid of cell values, modelling
the numpy arrays stored in `maze_cache` (`0` = walkable, `1` = blocked). -/
abbrev Chunk := Fin 4 → Fin 4 → ℚ

/-- Chunk coordinate of a world coordinate component: Python floor division
`x // CHUNK_SIZE` (game.py lines 104-105). -/
def cellChunk (x : ℤ) : ℤ := Int.fdiv x CHUNK_SIZE

/-- Local index of a world coordinate component inside its chunk: Python
modulus `x % CHUNK_SIZE` (game.py lines 106-107); Python `%` with a positive
modulus is the mathematical non-negative modulus, i.e. `Int.fmod`. -/
def cellLocal (x : ℤ) : ℤ := Int.fmod x CHUNK_SIZE

/-- Local index as an index into the `4 × 4` grid; `cellLocal` always lands
in `[0, 4)`, so the conversion to `Fin 4` loses nothing. -/
def localIdx (x : ℤ) : Fin 4 :=
  ⟨(cellLocal x).toNat, by
    unfold cellLocal CHUNK_SIZE
    rw [Int.fmod_eq_emod x (by decide : (0:ℤ) ≤ 4)]
    omega⟩

/-- Module-level mutable state of game.py (lines 27-36).  `maze_cache` is
the dict of generated chunks (association list, newest binding first, so
the most recent write wins exactly like dict assignment);
`chunk_generation_queue` is the foreground pending list consulted by
`get_maze_cell`; `generation_queue` is the worker's input queue;
`inFlight` is the key the worker has taken from its queue but not yet
committed; `invocations` is a ghost log of every `generate_chunk`
invocation, used to count duplicated work. -/
structure SysState where
  maze_cache : List (Coord × Chunk)
  chunk_generation_queue : List Coord
  generation_queue : List Coord
  inFlight : Option Coord
  invocations : List Coord

/-- Initial module state (game.py lines 27-36): everything empty, no
thread, nothing in flight. -/
def initState : SysState := ⟨[], [], [], none, []⟩

/-- Lookup in the association-list model of the Python dict `maze_cache`. -/
def cacheFind (cache : List (Coord × Chunk)) (k : Coord) : Option Chunk :=
  match cache with
  | [] => none
  | (k', v) :: rest => if k = k' then some v else cacheFind rest k

/-- Placeholder chunk `np.zeros((CHUNK_SIZE, CHUNK_SIZE))` (game.py line 52). -/
def zeroChunk : Chunk := fun _ _ => 0

/-- Embedding of `get_maze_chunk` (game.py lines 39-52): return the cached
chunk if present; otherwise append the key to `chunk_generation_queue`
unless it is already there, and return the all-zeros placeholder. -/
def get_maze_chunk (s : SysState) (k : Coord) : Chunk × SysState :=
  match cacheFind s.maze_cache k with
  | some chunk => (chunk, s)
  | none =>
      (zeroChunk,
        if k ∈ s.chunk_generation_queue then s
        else { s with chunk_generation_queue := s.chunk_generation_queue ++ [k] })

/-- Embedding of `get_maze_cell` (game.py lines 102-113): locate the chunk,
and if the fetched chunk is all zeros while the chunk coordinate sits in
`chunk_generation_queue`, return the literal `1`; otherwise return the
grid cell at the local indices. -/
def get_maze_cell (s : SysState) (x y : ℤ) : ℚ × SysState :=
  let chunk_x := cellChunk x
  let chunk_y := cellChunk y
  let r := get_maze_chunk s (chunk_x, chunk_y)
  if (∀ i j : Fin 4, r.1 i j = 0) ∧ (chunk_x, chunk_y) ∈ r.2.chunk_generation_queue then
    (1, r.2)
  else
    (r.1 (localIdx x) (localIdx y), r.2)

/-- Player state (game.py lines 116-120); the constructor sets `speed = 8`. -/
structure Player where
  x : ℤ
  y : ℤ
  speed : ℤ
deriving DecidableEq

/-- Embedding of `Player.move` (game.py lines 122-136).  Positions stay
integral (the start position and every increment are integers), so Python's
`int(new_x // CELL_SIZE)` is exactly floor division.  The move is rejected
(state unchanged apart from the query's side effect) precisely when
`get_maze_cell` returns `1`. -/
def Player.move (p : Player) (s : SysState) (dx dy : ℤ) : Player × SysState :=
  let new_x := p.x + dx * p.speed
  let new_y := p.y + dy * p.speed
  let grid_x := Int.fdiv new_x CELL_SIZE
  let grid_y := Int.fdiv new_y CELL_SIZE
  let r := get_maze_cell s grid_x grid_y
  if r.1 = 1 then (p, r.2) else ({ p with x := new_x, y := new_y }, r.2)

/-- Noise input coordinate `(l + c * CHUNK_SIZE) * 0.05` (game.py
lines 61-62). -/
def noiseCoord (c : ℤ) (l : Fin 4) : ℚ :=
  (((l : ℕ) : ℚ) + (c : ℚ) * ((CHUNK_SIZE : ℤ) : ℚ)) * 0.05

/-- Raw noise grid of a chunk (game.py lines 57-63), parameterized by the
pure noise function `noise2` standing for `noise_gen.noise2`. -/
def rawNoiseGrid (noise2 : ℚ → ℚ → ℚ) (chunk_x chunk_y : ℤ) : Chunk :=
  fun x y => noise2 (noiseCoord chunk_x x) (noiseCoord chunk_y y)

/-- Thresholding `np.where(np.abs(noise) < threshold, 0, 1)` with
`threshold = 0.2` (game.py lines 66-67). -/
def binaryNoiseGrid (noise2 : ℚ → ℚ → ℚ) (chunk_x chunk_y : ℤ) : Chunk :=
  fun x y => if |rawNoiseGrid noise2 chunk_x chunk_y x y| < 0.2 then 0 else 1

/-- Index reflection of scipy.ndimage's default boundary mode `reflect`
(`d c b a | a b c d | d c b a`) on an axis of length 4.  For the offsets
`-2 .. 1` around indices `0 .. 3` a single reflection suffices. -/
def reflectIdx (i : ℤ) : ℤ :=
  if i < 0 then -i - 1 else if 4 ≤ i then 7 - i else i

/-- Reflected index as a grid index.  The trailing `% 4` only guards
totality far outside the axis; for every index the size-4 window actually
produces, `reflectIdx` already lands in `[0, 4)`. -/
def reflectFin (i : ℤ) : Fin 4 := ⟨(reflectIdx i).toNat % 4, Nat.mod_lt _ (by decide)⟩

/-- Window offsets of `scipy.ndimage.median_filter(input, size=4)` along one
axis: an even-sized window of length 4 with scipy's origin convention spans
offsets `-2 .. 1` relative to the output position. -/
def offsets : List ℤ := [-2, -1, 0, 1]

/-- List of the 16 grid values in the `4 × 4` window at `(x, y)`, with
reflected boundary, read only from the grid `g` of this chunk. -/
def windowAt (g : Chunk) (x y : Fin 4) : List ℚ :=
  (offsets.map (fun dx =>
    offsets.map (fun dy =>
      g (reflectFin ((x : ℤ) + dx)) (reflectFin ((y : ℤ) + dy))))).flatten

/-- Embedding of `scipy.ndimage.median_filter(binary_noise, size=4)`
(game.py line 68): at each cell, the element of rank `16 / 2 = 8`
(0-indexed) of the sorted window — scipy's median for an even footprint. -/
def median_filter (g : Chunk) : Chunk :=
  fun x y => (List.insertionSort (· ≤ ·) (windowAt g x y)).getD 8 0

/-- Embedding of `generate_chunk` (game.py lines 55-71) minus the cache
commit on lines 70-71, which the transition `Step.commit` performs. -/
def generate_chunk (noise2 : ℚ → ℚ → ℚ) (chunk_x chunk_y : ℤ) : Chunk :=
  median_filter (binaryNoiseGrid noise2 chunk_x chunk_y)

/-- Small-step transitions of the two-actor system.
`query` is any foreground call of `get_maze_cell` (movement checks and
rendering, game.py lines 131 and 216); `drain` is one iteration of the
while loop of `process_chunk_generation` (lines 97-99) moving the oldest
foreground-queued key to the worker queue; `take` is the worker picking up
a key from its queue (line 77, recorded in the ghost `invocations` log
because line 82 then invokes the generator on it); `commit` is the worker
finishing `generate_chunk` and storing the result (lines 70-71). -/
inductive Step (noise2 : ℚ → ℚ → ℚ) : SysState → SysState → Prop
  | query (s : SysState) (x y : ℤ) :
      Step noise2 s (get_maze_cell s x y).2
  | drain (s : SysState) (k : Coord) (rest : List Coord)
      (h : s.chunk_generation_queue = k :: rest) :
      Step noise2 s
        { s with chunk_generation_queue := rest
                 generation_queue := s.generation_queue ++ [k] }
  | take (s : SysState) (k : Coord) (rest : List Coord)
      (h : s.generation_queue = k :: rest) (hf : s.inFlight = none) :
      Step noise2 s
        { s with generation_queue := rest
                 inFlight := some k
                 invocations := s.invocations ++ [k] }
  | commit (s : SysState) (k : Coord) (h : s.inFlight = some k) :
      Step noise2 s
        { s with maze_cache := (k, generate_chunk noise2 k.1 k.2) :: s.maze_cache
                 inFlight := none }

/-- Reachability from the initial module state under a fixed noise
function (fixed seed). -/
inductive Reachable (noise2 : ℚ → ℚ → ℚ) : SysState → Prop
  | init : Reachable noise2 initState
  | step {s s' : SysState} :
      Reachable noise2 s → Step noise2 s s' → Reachable noise2 s'

/-- Reflexive-transitive closure of `Step`. -/
inductive StepStar (noise2 : ℚ → ℚ → ℚ) : SysState → SysState → Prop
  | refl (s : SysState) : StepStar noise2 s s
  | tail {s t u : SysState} :
      StepStar noise2 s t → Step noise2 t u → StepStar noise2 s u

/-- Spec-side description (spec section 4.2, steps 1-2): the thresholded
cell value as a function of the world cell coordinate alone. -/
def blockedAtWorld (noise2 : ℚ → ℚ → ℚ) (wx wy : ℤ) : ℚ :=
  if |noise2 ((wx : ℚ) * 0.05) ((wy : ℚ) * 0.05)| < 0.2 then 0 else 1

/-- Concrete noise function used for closed witnesses. -/
def noise0 : ℚ → ℚ → ℚ := fun _ _ => 0

/-- Concrete trace state: after the first `get_maze_cell` query of world
cell `(0, 0)` from the initial state; chunk `(0, 0)` is now queued. -/
def t1 : SysState := (get_maze_cell initState 0 0).2

/-- Concrete trace state: after `process_chunk_generation` drains the key
`(0, 0)` to the worker queue. -/
def t2 : SysState :=
  { t1 with chunk_generation_queue := []
            generation_queue := t1.generation_queue ++ [(0, 0)] }

/-- Concrete trace state: world cell `(0, 0)` is queried again while the
worker has not yet committed; the key is re-appended to the foreground
queue. -/
def t3 : SysState := (get_maze_cell t2 0 0).2

/-- Concrete trace state: the worker takes `(0, 0)` from its queue. -/
def t4 : SysState :=
  { t3 with generation_queue := []
            inFlight := some (0, 0)
            invocations := t3.invocations ++ [(0, 0)] }

/-- Concrete trace state: the worker commits the generated chunk for
`(0, 0)` while the key still sits in the foreground queue. -/
def t5 : SysState :=
  { t4 with maze_cache := ((0, 0), generate_chunk noise0 (0, 0).1 (0, 0).2) :: t4.maze_cache
            inFlight := none }

/-- Concrete trace state: alternative continuation of `t3` where the
foreground drains again before the worker runs; the worker queue now holds
`(0, 0)` twice. -/
def u4 : SysState :=
  { t3 with chunk_generation_queue := []
            generation_queue := t3.generation_queue ++ [(0, 0)] }

/-- Concrete trace state: the worker takes the first copy of `(0, 0)`. -/
def u5 : SysState :=
  { u4 with generation_queue := [(0, 0)]
            inFlight := some (0, 0)
            invocations := u4.invocations ++ [(0, 0)] }

/-- Concrete trace state: the worker commits the first generation of
`(0, 0)`. -/
def u6 : SysState :=
  { u5 with maze_cache := ((0, 0), generate_chunk noise0 (0, 0).1 (0, 0).2) :: u5.maze_cache
            inFlight := none }

/-- Concrete trace state: the worker takes the second copy of `(0, 0)`;
the generator has now been invoked twice for the same chunk coordinate. -/
def u7 : SysState :=
  { u6 with generation_queue := []
            inFlight := some (0, 0)
            invocations := u6.invocations ++ [(0, 0)] }

/-- Shutdown-relevant state of `main` (game.py lines 152-239):
`generation_thread` records whether the worker thread has been started
(`generation_thread is not None`), `sentinel_sent` whether the sentinel
`None` was ever put on `generation_queue`, `joined` whether the thread was
joined. -/
structure MainState where
  sys : SysState
  generation_thread : Bool
  sentinel_sent : Bool
  joined : Bool

/-- State at entry of `main`: module state fresh, no worker thread. -/
def initMain : MainState := ⟨initState, false, false, false⟩

/-- Big-step embedding of `process_chunk_generation` (game.py lines
86-99): start the worker thread if it is not running, then move every
foreground-queued key to the worker queue in order. -/
def process_chunk_generation (m : MainState) : MainState :=
  { m with
    generation_thread := true
    sys := { m.sys with
      chunk_generation_queue := []
      generation_queue := m.sys.generation_queue ++ m.sys.chunk_generation_queue } }

/-- Embedding of the `finally` block of `main` (game.py lines 159-163):
if the worker thread exists, put the sentinel on its queue and join it;
otherwise do nothing. -/
def main_cleanup (m : MainState) : MainState :=
  if m.generation_thread then { m with sentinel_sent := true, joined := true } else m

/-- One iteration of the main loop (game.py lines 166-237): the movement
and rendering queries of the frame (each one a `get_maze_cell` call),
followed by the unconditional `process_chunk_generation()` call of
line 183. -/
def main_frame (queries : List Coord) (m : MainState) : MainState :=
  process_chunk_generation
    { m with sys := queries.foldl (fun s q => (get_maze_cell s q.1 q.2).2) m.sys }

/-- Embedding of the control flow of `main` (game.py lines 152-239): the
`try/finally` wraps only the initialization (lines 153-163), so the
cleanup runs immediately after setup — before the game loop — and after
the loop `main` returns with no further cleanup.  A run is abstracted by
the list of per-frame query lists. -/
def main_model (frames : List (List Coord)) : MainState :=
  frames.foldl (fun m qs => main_frame qs m) (main_cleanup initMain)

/-! Helper lemmas about the embedded operations. -/

theorem cacheFind_cons (k' : Coord) (v' : Chunk) (rest : List (Coord × Chunk)) (q : Coord) :
    cacheFind ((k', v') :: rest) q = if q = k' then some v' else cacheFind rest q := rfl

theorem cellChunk_eq_ediv (x : ℤ) : cellChunk x = x / 4 := by
  unfold cellChunk CHUNK_SIZE
  exact Int.fdiv_eq_ediv _ (by decide)

theorem cellLocal_eq_emod (x : ℤ) : cellLocal x = x % 4 := by
  unfold cellLocal CHUNK_SIZE
  exact Int.fmod_eq_emod _ (by decide)

theorem cellLocal_bounds (x : ℤ) : 0 ≤ cellLocal x ∧ cellLocal x < 4 := by
  rw [cellLocal_eq_emod]
  omega

theorem get_maze_chunk_snd_cases (s : SysState) (k : Coord) :
    (get_maze_chunk s k).2 = s ∨
      (k ∉ s.chunk_generation_queue ∧
        (get_maze_chunk s k).2 =
          { s with chunk_generation_queue := s.chunk_generation_queue ++ [k] }) := by
  unfold get_maze_chunk
  rcases cacheFind s.maze_cache k with _ | v
  · dsimp only
    split
    · exact Or.inl rfl
    · next hnot => exact Or.inr ⟨hnot, rfl⟩
  · exact Or.inl rfl

theorem get_maze_cell_snd (s : SysState) (x y : ℤ) :
    (get_maze_cell s x y).2 = (get_maze_chunk s (cellChunk x, cellChunk y)).2 := by
  unfold get_maze_cell
  dsimp only
  split <;> rfl

theorem get_maze_cell_fst (s : SysState) (x y : ℤ) :
    (get_maze_cell s x y).1 =
      if (∀ i j : Fin 4, (get_maze_chunk s (cellChunk x, cellChunk y)).1 i j = 0) ∧
          (cellChunk x, cellChunk y) ∈
            (get_maze_chunk s (cellChunk x, cellChunk y)).2.chunk_generation_queue then
        1
      else
        (get_maze_chunk s (cellChunk x, cellChunk y)).1 (localIdx x) (localIdx y) := by
  unfold get_maze_cell
  dsimp only
  split <;> rfl

/-- Invariant: every chunk stored in the cache is the output of the
deterministic generator at its own key. -/
def CacheInv (noise2 : ℚ → ℚ → ℚ) (s : SysState) : Prop :=
  ∀ k v, cacheFind s.maze_cache k = some v → v = generate_chunk noise2 k.1 k.2

theorem step_preserves_cacheInv {noise2 : ℚ → ℚ → ℚ} {s s' : SysState}
    (hstep : Step noise2 s s') (h : CacheInv noise2 s) : CacheInv noise2 s' := by
  cases hstep with
  | query x y =>
      intro k v hv
      rw [get_maze_cell_snd] at hv
      rcases get_maze_chunk_snd_cases s (cellChunk x, cellChunk y) with heq | ⟨-, heq⟩ <;>
        rw [heq] at hv <;> exact h k v hv
  | drain k rest hq => exact h
  | take k rest hq hf => exact h
  | commit k hk =>
      intro q v hv
      replace hv : cacheFind ((k, generate_chunk noise2 k.1 k.2) :: s.maze_cache) q = some v := hv
      rw [cacheFind_cons] at hv
      obtain hqk | hqk := eq_or_ne q k
      · rw [if_pos hqk] at hv
        rw [hqk]
        exact (Option.some.inj hv).symm
      · rw [if_neg hqk] at hv
        exact h q v hv

theorem reachable_cacheInv {noise2 : ℚ → ℚ → ℚ} {s : SysState}
    (h : Reachable noise2 s) : CacheInv noise2 s := by
  induction h with
  | init =>
      intro k v hv
      simp [initState, cacheFind] at hv
  | step _ hstep ih => exact step_preserves_cacheInv hstep ih

theorem Step.cache_mono {noise2 : ℚ → ℚ → ℚ} {s s' : SysState}
    (hstep : Step noise2 s s') (hinv : CacheInv noise2 s) {c : Coord} {v : Chunk}
    (hv : cacheFind s.maze_cache c = some v) :
    cacheFind s'.maze_cache c = some v := by
  cases hstep with
  | query x y =>
      rw [get_maze_cell_snd]
      rcases get_maze_chunk_snd_cases s (cellChunk x, cellChunk y) with heq | ⟨-, heq⟩ <;>
        rw [heq] <;> exact hv
  | drain k rest hq => exact hv
  | take k rest hq hf => exact hv
  | commit k hk =>
      show cacheFind ((k, generate_chunk noise2 k.1 k.2) :: s.maze_cache) c = some v
      rw [cacheFind_cons]
      obtain hck | hck := eq_or_ne c k
      · rw [if_pos hck, hinv c v hv, hck]
      · rw [if_neg hck]
        exact hv

theorem StepStar.reachable {noise2 : ℚ → ℚ → ℚ} {s s' : SysState}
    (h : Reachable noise2 s) (hss : StepStar noise2 s s') : Reachable noise2 s' := by
  induction hss with
  | refl => exact h
  | tail _ hstep ih => exact ih.step hstep

theorem Step.nodup {noise2 : ℚ → ℚ → ℚ} {s s' : SysState}
    (hstep : Step noise2 s s') (h : s.chunk_generation_queue.Nodup) :
    s'.chunk_generation_queue.Nodup := by
  cases hstep with
  | query x y =>
      rw [get_maze_cell_snd]
      rcases get_maze_chunk_snd_cases s (cellChunk x, cellChunk y) with heq | ⟨hnot, heq⟩ <;>
        rw [heq]
      · exact h
      · simp [List.nodup_append, h, hnot]
  | drain k rest hq =>
      rw [hq] at h
      exact h.of_cons
  | take k rest hq hf => exact h
  | commit k hk => exact h

theorem reachable_nodup {noise2 : ℚ → ℚ → ℚ} {s : SysState}
    (hs : Reachable noise2 s) : s.chunk_generation_queue.Nodup := by
  induction hs with
  | init => exact List.nodup_nil
  | step _ hstep ih => exact hstep.nodup ih

/-- Predicate: the coordinate is somewhere inside the system — foreground
pending list, worker queue, in flight, or cache. -/
def InSystem (c : Coord) (s : SysState) : Prop :=
  c ∈ s.chunk_generation_queue ∨ c ∈ s.generation_queue ∨ s.inFlight = some c ∨
    ∃ v, cacheFind s.maze_cache c = some v

theorem step_preserves_inSystem {noise2 : ℚ → ℚ → ℚ} {s s' : SysState}
    (hstep : Step noise2 s s') (c : Coord) (h : InSystem c s) : InSystem c s' := by
  cases hstep with
  | query x y =>
      rw [InSystem, get_maze_cell_snd]
      rcases get_maze_chunk_snd_cases s (cellChunk x, cellChunk y) with heq | ⟨-, heq⟩ <;>
        rw [heq]
      · exact h
      · rcases h with h | h | h | h
        · exact Or.inl (List.mem_append_left _ h)
        · exact Or.inr (Or.inl h)
        · exact Or.inr (Or.inr (Or.inl h))
        · exact Or.inr (Or.inr (Or.inr h))
  | drain k rest hq =>
      rcases h with h | h | h | h
      · rw [hq] at h
        rcases List.mem_cons.mp h with rfl | h
        · exact Or.inr (Or.inl (List.mem_append_right _ (List.mem_singleton.mpr rfl)))
        · exact Or.inl h
      · exact Or.inr (Or.inl (List.mem_append_left _ h))
      · exact Or.inr (Or.inr (Or.inl h))
      · exact Or.inr (Or.inr (Or.inr h))
  | take k rest hq hf =>
      rcases h with h | h | h | h
      · exact Or.inl h
      · rw [hq] at h
        rcases List.mem_cons.mp h with rfl | h
        · exact Or.inr (Or.inr (Or.inl rfl))
        · exact Or.inr (Or.inl h)
      · rw [hf] at h
        cases h
      · exact Or.inr (Or.inr (Or.inr h))
  | commit k hk =>
      rcases h with h | h | h | h
      · exact Or.inl h
      · exact Or.inr (Or.inl h)
      · rw [hk] at h
        have hkc : k = c := Option.some.inj h
        refine Or.inr (Or.inr (Or.inr ⟨generate_chunk noise2 k.1 k.2, ?_⟩))
        show cacheFind ((k, generate_chunk noise2 k.1 k.2) :: s.maze_cache) c =
          some (generate_chunk noise2 k.1 k.2)
        rw [cacheFind_cons, if_pos hkc.symm]
      · rcases h with ⟨v, hv⟩
        refine Or.inr (Or.inr (Or.inr ?_))
        show ∃ w, cacheFind ((k, generate_chunk noise2 k.1 k.2) :: s.maze_cache) c = some w
        rw [cacheFind_cons]
        obtain hck | hck := eq_or_ne c k
        · rw [if_pos hck]
          exact ⟨_, rfl⟩
        · rw [if_neg hck]
          exact ⟨v, hv⟩

theorem star_preserves_inSystem {noise2 : ℚ → ℚ → ℚ} {s s' : SysState}
    (hss : StepStar noise2 s s') (c : Coord) (h : InSystem c s) : InSystem c s' := by
  induction hss with
  | refl => exact h
  | tail _ hstep ih => exact step_preserves_inSystem hstep c ih

/-! Reachability of the concrete trace states. -/

theorem reach_t1 : Reachable noise0 t1 :=
  Reachable.init.step (Step.query initState 0 0)

theorem reach_t2 : Reachable noise0 t2 :=
  reach_t1.step (Step.drain t1 (0, 0) [] (by decide))

theorem reach_t3 : Reachable noise0 t3 :=
  reach_t2.step (Step.query t2 0 0)

theorem reach_t4 : Reachable noise0 t4 :=
  reach_t3.step (Step.take t3 (0, 0) [] (by decide) (by decide))

theorem reach_t5 : Reachable noise0 t5 :=
  reach_t4.step (Step.commit t4 (0, 0) (by decide))

theorem reach_u4 : Reachable noise0 u4 :=
  reach_t3.step (Step.drain t3 (0, 0) [] (by decide))

theorem reach_u5 : Reachable noise0 u5 :=
  reach_u4.step (Step.take u4 (0, 0) [(0, 0)] (by decide) (by decide))

theorem reach_u6 : Reachable noise0 u6 :=
  reach_u5.step (Step.commit u5 (0, 0) (by decide))

theorem reach_u7 : Reachable noise0 u7 :=
  reach_u6.step (Step.take u6 (0, 0) [] (by decide) (by decide))

theorem star_t1_t5 : StepStar noise0 t1 t5 :=
  ((((StepStar.refl t1).tail
      (Step.drain t1 (0, 0) [] (by decide))).tail
      (Step.query t2 0 0)).tail
      (Step.take t3 (0, 0) [] (by decide) (by decide))).tail
      (Step.commit t4 (0, 0) (by decide))

/-! Binary-valuedness of generated chunks. -/

theorem binaryNoiseGrid_binary (noise2 : ℚ → ℚ → ℚ) (cx cy : ℤ) (i j : Fin 4) :
    binaryNoiseGrid noise2 cx cy i j = 0 ∨ binaryNoiseGrid noise2 cx cy i j = 1 := by
  unfold binaryNoiseGrid
  split
  · exact Or.inl rfl
  · exact Or.inr rfl

theorem mem_windowAt {g : Chunk} {x y : Fin 4} {q : ℚ} (hq : q ∈ windowAt g x y) :
    ∃ a b, q = g a b := by
  unfold windowAt at hq
  rcases List.mem_flatten.mp hq with ⟨inner, hinner, hqin⟩
  rcases List.mem_map.mp hinner with ⟨dx, -, rfl⟩
  rcases List.mem_map.mp hqin with ⟨dy, -, rfl⟩
  exact ⟨_, _, rfl⟩

theorem median_filter_binary {g : Chunk} (hg : ∀ i j, g i j = 0 ∨ g i j = 1) (x y : Fin 4) :
    median_filter g x y = 0 ∨ median_filter g x y = 1 := by
  unfold median_filter
  have hlen : (List.insertionSort (· ≤ ·) (windowAt g x y)).length = 16 := by
    rw [List.length_insertionSort]
    rfl
  have h8 : 8 < (List.insertionSort (· ≤ ·) (windowAt g x y)).length := by
    rw [hlen]
    decide
  rw [List.getD_eq_get _ _ h8]
  have hmem : (List.insertionSort (· ≤ ·) (windowAt g x y)).get ⟨8, h8⟩ ∈ windowAt g x y :=
    (List.perm_insertionSort (· ≤ ·) (windowAt g x y)).mem_iff.mp
      (List.get_mem _ 8 h8)
  rcases mem_windowAt hmem with ⟨a, b, hab⟩
  rw [hab]
  exact hg a b

theorem generate_chunk_binary (noise2 : ℚ → ℚ → ℚ) (cx cy : ℤ) (i j : Fin 4) :
    generate_chunk noise2 cx cy i j = 0 ∨ generate_chunk noise2 cx cy i j = 1 :=
  median_filter_binary (binaryNoiseGrid_binary noise2 cx cy) i j

/-- World-coordinate form of the noise input: the argument passed to the
noise function depends only on the world coordinate `c * CHUNK_SIZE + l`. -/
theorem noiseCoord_world (c : ℤ) (l : Fin 4) :
    noiseCoord c l = ((c * 4 + ((l : ℕ) : ℤ) : ℤ) : ℚ) * 0.05 := by
  unfold noiseCoord CHUNK_SIZE
  push_cast
  ring

/-! Claim theorems. -/

/-- C1 (code bug evidence): querying a cell of a never-before-seen chunk
from the fresh initial state returns the value `1` — the very value that
`Player.move` (and the renderer) treat as Blocked-as-wall — so a move into
not-yet-generated space is rejected: the player starting at `(30, 30)`
(game.py line 158) moving right by `(1, 0)` stays in place, even though
the target chunk `(0, 0)` was never generated (`maze_cache` empty).  This
contradicts the claim (and the code's own comment on line 112) that
not-yet-generated space is treated as walkable and never rejected. -/
theorem C1_pending_cell_is_wall_and_blocks_movement :
    (get_maze_cell initState 5 5).1 = 1 ∧
    (Player.move ⟨30, 30, 8⟩ initState 1 0).1 = (⟨30, 30, 8⟩ : Player) ∧
    cacheFind initState.maze_cache (cellChunk 5, cellChunk 5) = none := by
  exact ⟨by decide, by decide, rfl⟩

/-- C2 (counterexample): the three-state partition is violated by reachable
states.  In `t2` the coordinate `(0, 0)` has been requested but sits in
neither the foreground pending list nor the cache (a reader observes it
removed from the pending list long before the chunk is in the cache), and
in `t5` it sits in the pending list and the cache simultaneously. -/
theorem C2_counterexample_three_state_partition_fails :
    (Reachable noise0 t2 ∧ (0, 0) ∈ t2.generation_queue ∧
      (0, 0) ∉ t2.chunk_generation_queue ∧ cacheFind t2.maze_cache (0, 0) = none) ∧
    (Reachable noise0 t5 ∧ (0, 0) ∈ t5.chunk_generation_queue ∧
      cacheFind t5.maze_cache (0, 0) = some (generate_chunk noise0 0 0)) :=
  ⟨⟨reach_t2, by decide, by decide, rfl⟩, ⟨reach_t5, by decide, rfl⟩⟩

/-- C2 (amended): what does hold is that a coordinate, once anywhere inside
the system (foreground pending list, worker queue, in flight, or cache),
is never lost by any step — but it may be observed in neither the pending
list nor the cache (while drained or in flight), or in both at once. -/
theorem C2_amended_requested_key_never_lost (noise2 : ℚ → ℚ → ℚ)
    (s s' : SysState) (c : Coord) (hss : StepStar noise2 s s')
    (h : InSystem c s) : InSystem c s' :=
  star_preserves_inSystem hss c h

/-- C2 amended, witnessed on a concrete trace: `(0, 0)` entered the system
in `t1` and is still in the system at `t5`. -/
theorem C2_amended_witness : InSystem (0, 0) t5 :=
  C2_amended_requested_key_never_lost noise0 t1 t5 (0, 0) star_t1_t5
    (Or.inl (by decide))

/-- C3 (counterexample): after a request, a drain, a re-request and a
second drain, the reachable state `u4` has the worker queue holding
`(0, 0)` twice; continuing the trace, the reachable state `u7` logs two
generator invocations for `(0, 0)`.  So N requests before commit do not
result in exactly one generation invocation, and the queues hold the
coordinate twice within the request-to-commit window. -/
theorem C3_counterexample_duplicate_generation :
    (Reachable noise0 u4 ∧ u4.generation_queue = [(0, 0), (0, 0)]) ∧
    (Reachable noise0 u7 ∧ u7.invocations = [(0, 0), (0, 0)]) :=
  ⟨⟨reach_u4, by decide⟩, ⟨reach_u7, by decide⟩⟩

/-- C3 (amended): deduplication works only while the coordinate stays in
the foreground queue: in every reachable state the foreground pending list
is duplicate-free, and a request whose chunk coordinate is already in the
foreground pending list leaves that list unchanged.  (Once the coordinate
is drained to the worker queue but not yet committed, a new request
re-enqueues it, as the counterexample shows.) -/
theorem C3_amended_foreground_queue_dedup (noise2 : ℚ → ℚ → ℚ) (s : SysState)
    (hs : Reachable noise2 s) :
    s.chunk_generation_queue.Nodup ∧
    ∀ x y : ℤ, (cellChunk x, cellChunk y) ∈ s.chunk_generation_queue →
      (get_maze_cell s x y).2.chunk_generation_queue = s.chunk_generation_queue := by
  refine ⟨reachable_nodup hs, fun x y hmem => ?_⟩
  rw [get_maze_cell_snd]
  unfold get_maze_chunk
  rcases hfind : cacheFind s.maze_cache (cellChunk x, cellChunk y) with _ | v
  · dsimp only
    rw [if_pos hmem]
  · rfl

/-- C3 amended, witnessed at the concrete reachable state `t1`. -/
theorem C3_amended_witness :
    t1.chunk_generation_queue.Nodup ∧
    (get_maze_cell t1 0 0).2.chunk_generation_queue = t1.chunk_generation_queue :=
  ⟨(C3_amended_foreground_queue_dedup noise0 t1 reach_t1).1,
   (C3_amended_foreground_queue_dedup noise0 t1 reach_t1).2 0 0 (by decide)⟩

/-- C4: the façade's coordinate arithmetic is floor division and the
mathematical non-negative modulus — `cellChunk x` equals Euclidean `x / 4`
and satisfies the floor characterization, `cellLocal x` lies in
`[0, CHUNK_SIZE)`, and together they address exactly the cell of the chunk
covering the world cell (`cellChunk x * 4 + cellLocal x = x`), negatives
included. -/
theorem C4_floor_division_and_nonneg_modulus (x : ℤ) :
    cellChunk x = x / 4 ∧ cellLocal x = x % 4 ∧
    0 ≤ cellLocal x ∧ cellLocal x < CHUNK_SIZE ∧
    cellChunk x * CHUNK_SIZE + cellLocal x = x ∧
    cellChunk x * CHUNK_SIZE ≤ x ∧ x < cellChunk x * CHUNK_SIZE + CHUNK_SIZE := by
  have h1 := cellChunk_eq_ediv x
  have h2 := cellLocal_eq_emod x
  unfold CHUNK_SIZE
  refine ⟨h1, h2, ?_, ?_, ?_, ?_, ?_⟩ <;> simp only [h1, h2] <;> omega

/-- C5: `generate_chunk` equals the median filter (window size 4, reading
only this chunk's grid) of the thresholded noise grid expressed purely in
world coordinates; a cell is marked `1` (Blocked) exactly when the
absolute noise value is at least `0.2`, and `0` (Walkable) exactly when it
is below `0.2`; and the noise sample input depends only on the world
coordinate `chunk * CHUNK_SIZE + local`, so sampling is seam-continuous
across chunks. -/
theorem C5_generation_pipeline (noise2 : ℚ → ℚ → ℚ) (cx cy : ℤ) :
    generate_chunk noise2 cx cy =
      median_filter (fun lx ly =>
        blockedAtWorld noise2 (cx * 4 + ((lx : ℕ) : ℤ)) (cy * 4 + ((ly : ℕ) : ℤ))) ∧
    (∀ lx ly : Fin 4,
      (binaryNoiseGrid noise2 cx cy lx ly = 1 ↔
        0.2 ≤ |rawNoiseGrid noise2 cx cy lx ly|) ∧
      (binaryNoiseGrid noise2 cx cy lx ly = 0 ↔
        |rawNoiseGrid noise2 cx cy lx ly| < 0.2)) ∧
    (∀ (cx' cy' : ℤ) (lx ly lx' ly' : Fin 4),
      cx * 4 + ((lx : ℕ) : ℤ) = cx' * 4 + ((lx' : ℕ) : ℤ) →
      cy * 4 + ((ly : ℕ) : ℤ) = cy' * 4 + ((ly' : ℕ) : ℤ) →
      rawNoiseGrid noise2 cx cy lx ly = rawNoiseGrid noise2 cx' cy' lx' ly') := by
  refine ⟨?_, ?_, ?_⟩
  · unfold generate_chunk
    have hgrid : binaryNoiseGrid noise2 cx cy = fun (lx ly : Fin 4) =>
        blockedAtWorld noise2 (cx * 4 + ((lx : ℕ) : ℤ)) (cy * 4 + ((ly : ℕ) : ℤ)) := by
      funext lx ly
      unfold binaryNoiseGrid blockedAtWorld rawNoiseGrid
      rw [noiseCoord_world, noiseCoord_world]
    rw [hgrid]
  · intro lx ly
    unfold binaryNoiseGrid
    split
    · next hlt =>
        exact ⟨iff_of_false (by norm_num) (not_le.mpr hlt), iff_of_true rfl hlt⟩
    · next hge =>
        exact ⟨iff_of_true rfl (not_lt.mp hge), iff_of_false (by norm_num) hge⟩
  · intro cx' cy' lx ly lx' ly' hx hy
    unfold rawNoiseGrid
    rw [noiseCoord_world, noiseCoord_world, noiseCoord_world, noiseCoord_world, hx, hy]

/-- C5, witnessed at the concrete chunk `(0, 0)` with the zero noise
function: the pipeline refinement instantiated, and the seam equality
applied at concrete indices. -/
theorem C5_witness :
    generate_chunk noise0 0 0 =
      median_filter (fun lx ly =>
        blockedAtWorld noise0 (0 * 4 + ((lx : ℕ) : ℤ)) (0 * 4 + ((ly : ℕ) : ℤ))) ∧
    rawNoiseGrid noise0 0 0 1 2 = rawNoiseGrid noise0 0 0 1 2 :=
  ⟨(C5_generation_pipeline noise0 0 0).1,
   (C5_generation_pipeline noise0 0 0).2.2 0 0 1 2 1 2 (by decide) (by decide)⟩

/-- C6: the cache is monotone — once a chunk value is committed for a
coordinate in a reachable state, every later state still holds exactly
that value (later duplicate regenerations overwrite it with an equal
value, since every cached value is the deterministic generator's output at
its key), and `get_maze_chunk` keeps returning it. -/
theorem C6_cache_monotone (noise2 : ℚ → ℚ → ℚ) (s s' : SysState) (c : Coord)
    (v : Chunk) (hs : Reachable noise2 s)
    (hv : cacheFind s.maze_cache c = some v) (hss : StepStar noise2 s s') :
    cacheFind s'.maze_cache c = some v ∧ (get_maze_chunk s' c).1 = v := by
  have hmono : cacheFind s'.maze_cache c = some v := by
    induction hss with
    | refl => exact hv
    | tail hstar hstep ih =>
        exact hstep.cache_mono (reachable_cacheInv (hstar.reachable hs)) ih
  refine ⟨hmono, ?_⟩
  unfold get_maze_chunk
  rw [hmono]

/-- C6, witnessed on the concrete trace: the chunk committed at `t5`
is still returned by `get_maze_chunk` there. -/
theorem C6_witness :
    cacheFind t5.maze_cache (0, 0) = some (generate_chunk noise0 0 0) ∧
    (get_maze_chunk t5 (0, 0)).1 = generate_chunk noise0 0 0 :=
  C6_cache_monotone noise0 t5 t5 (0, 0) (generate_chunk noise0 0 0) reach_t5 rfl
    (StepStar.refl t5)

/-- C7 (code bug evidence): the cleanup of `main` — sending the sentinel
and joining the worker — sits in a `finally` attached only to the
initialization block, so it executes before the game loop while
`generation_thread` is still `None`; consequently in every run of the
model, the sentinel is never sent and the thread is never joined, even
though after any first frame the worker thread is running.  This
contradicts the claim that on shutdown the sentinel is delivered after the
worker starts and the owner joins it. -/
theorem C7_shutdown_never_signals_worker :
    (∀ frames : List (List Coord),
      (main_model frames).sentinel_sent = false ∧ (main_model frames).joined = false) ∧
    (∀ (qs : List Coord) (frames : List (List Coord)),
      (main_model (qs :: frames)).generation_thread = true) := by
  have hpres : ∀ (frames : List (List Coord)) (m : MainState),
      (frames.foldl (fun m qs => main_frame qs m) m).sentinel_sent = m.sentinel_sent ∧
      (frames.foldl (fun m qs => main_frame qs m) m).joined = m.joined := by
    intro frames
    induction frames with
    | nil => exact fun m => ⟨rfl, rfl⟩
    | cons qs rest ih =>
        intro m
        exact ih (main_frame qs m)
  have hthread : ∀ (frames : List (List Coord)) (m : MainState),
      m.generation_thread = true →
      (frames.foldl (fun m qs => main_frame qs m) m).generation_thread = true := by
    intro frames
    induction frames with
    | nil => exact fun m hm => hm
    | cons qs rest ih =>
        intro m hm
        exact ih (main_frame qs m) rfl
  constructor
  · intro frames
    exact hpres frames (main_cleanup initMain)
  · intro qs frames
    exact hthread frames (main_frame qs (main_cleanup initMain)) rfl

/-- C8: generation is deterministic for a fixed seed (fixed noise
function): any two chunks cached for the same coordinate — in the same or
in two different reachable states of runs sharing the noise function — are
equal, and both equal the pure generator output at that coordinate; hence
two invocations of the generator for one coordinate always commit
identical chunks. -/
theorem C8_generation_deterministic (noise2 : ℚ → ℚ → ℚ) (s1 s2 : SysState)
    (c : Coord) (v1 v2 : Chunk) (h1 : Reachable noise2 s1) (h2 : Reachable noise2 s2)
    (hc1 : cacheFind s1.maze_cache c = some v1)
    (hc2 : cacheFind s2.maze_cache c = some v2) :
    v1 = v2 ∧ v1 = generate_chunk noise2 c.1 c.2 := by
  have e1 := reachable_cacheInv h1 c v1 hc1
  have e2 := reachable_cacheInv h2 c v2 hc2
  exact ⟨e1.trans e2.symm, e1⟩

/-- C8, witnessed on two copies of the concrete committed state. -/
theorem C8_witness :
    generate_chunk noise0 0 0 = generate_chunk noise0 0 0 ∧
    generate_chunk noise0 0 0 = generate_chunk noise0 (0, 0).1 (0, 0).2 :=
  C8_generation_deterministic noise0 t5 t5 (0, 0) (generate_chunk noise0 0 0)
    (generate_chunk noise0 0 0) reach_t5 reach_t5 rfl rfl

/-- C9: `get_maze_cell` is total and its grid access is in bounds for all
integer inputs, negatives included: the local index used for the lookup is
exactly `cellLocal`, which lies in `[0, 4)` and is embedded losslessly in
the grid's index type, matching the `4 × 4` shape of cached chunks and of
the all-zeros placeholder; and the returned value is either the pending
literal `1` or a read of the fetched chunk at those in-bounds indices. -/
theorem C9_cell_lookup_in_bounds (s : SysState) (x y : ℤ) :
    (((localIdx x : Fin 4) : ℕ) : ℤ) = cellLocal x ∧ ((localIdx x : Fin 4) : ℕ) < 4 ∧
    (((localIdx y : Fin 4) : ℕ) : ℤ) = cellLocal y ∧ ((localIdx y : Fin 4) : ℕ) < 4 ∧
    ((get_maze_cell s x y).1 = 1 ∨
      (get_maze_cell s x y).1 =
        (get_maze_chunk s (cellChunk x, cellChunk y)).1 (localIdx x) (localIdx y)) := by
  refine ⟨?_, (localIdx x).isLt, ?_, (localIdx y).isLt, ?_⟩
  · exact Int.toNat_of_nonneg (cellLocal_bounds x).1
  · exact Int.toNat_of_nonneg (cellLocal_bounds y).1
  · rw [get_maze_cell_fst]
    split
    · exact Or.inl rfl
    · exact Or.inr rfl

/-- C10: every value `get_maze_cell` returns in a reachable state is `0`
or `1` — generated chunks are binary after thresholding and the median
filter, the placeholder is all zeros, and the pending branch returns the
literal `1` — so comparing the result against `1` covers every outcome. -/
theorem C10_cell_values_binary (noise2 : ℚ → ℚ → ℚ) (s : SysState) (x y : ℤ)
    (hs : Reachable noise2 s) :
    (get_maze_cell s x y).1 = 0 ∨ (get_maze_cell s x y).1 = 1 := by
  rw [get_maze_cell_fst]
  split
  · exact Or.inr rfl
  · rcases hfind : cacheFind s.maze_cache (cellChunk x, cellChunk y) with _ | v
    · have hz : (get_maze_chunk s (cellChunk x, cellChunk y)).1 = zeroChunk := by
        unfold get_maze_chunk
        rw [hfind]
      rw [hz]
      exact Or.inl rfl
    · have hv : (get_maze_chunk s (cellChunk x, cellChunk y)).1 = v := by
        unfold get_maze_chunk
        rw [hfind]
      rw [hv, reachable_cacheInv hs _ v hfind]
      exact generate_chunk_binary noise2 _ _ (localIdx x) (localIdx y)

/-- C10, witnessed at the concrete reachable state `t5`. -/
theorem C10_witness :
    (get_maze_cell t5 0 0).1 = 0 ∨ (get_maze_cell t5 0 0).1 = 1 :=
  C10_cell_values_binary noise0 t5 0 0 reach_t5

end Maze
